import Mathlib

/-!
Verification of the kube-foundry NVIDIA Dynamo provider
(`backend/src/providers/dynamo/index.ts`) and of the cross-namespace
deployment-listing route handler (`backend/src/routes/deployments.ts`).

The TypeScript source manipulates untyped JSON-like values (optional
chaining, `||` defaulting, object spread, template literals), so the
embedding is built over a small model of JavaScript runtime values
(`JsVal`) together with the exact JS primitives the source uses:
truthiness, `||`, property access (plain access throws on `null` /
`undefined`, optional access does not), key assignment on objects,
string interpolation and the `+` operator.
-/

namespace KubeFoundry

/-- A JavaScript runtime value, as far as the translated code can
observe one.  Objects are ordered field lists (JS objects preserve
insertion order); `nan` stands for the number `NaN`. -/
inductive JsVal where
  | null
  | undef
  | nan
  | bool (b : Bool)
  | num (n : Int)
  | str (s : String)
  | arr (elems : List JsVal)
  | obj (fields : List (String × JsVal))
deriving Repr

namespace JsVal

/-- JS truthiness: `false`, `0`, `NaN`, `""`, `null`, `undefined` are falsy;
every other value (including every object and array) is truthy. -/
def truthy : JsVal → Bool
  | .null => false
  | .undef => false
  | .nan => false
  | .bool b => b
  | .num n => n != 0
  | .str s => s != ""
  | .arr _ => true
  | .obj _ => true

/-- The JS `v || d` operator. -/
def jsOr (v d : JsVal) : JsVal := if v.truthy then v else d

/-- String conversion as performed by template literals and `String()`. -/
def jsToString : JsVal → String
  | .null => "null"
  | .undef => "undefined"
  | .nan => "NaN"
  | .bool b => if b then "true" else "false"
  | .num n => toString n
  | .str s => s
  | .arr xs => joinElems xs
  | .obj _ => "[object Object]"
where
  /-- `Array.prototype.toString`: comma-joined elements, with `null` and
  `undefined` elements printed as the empty string. -/
  joinElems : List JsVal → String
    | [] => ""
    | [.null] => ""
    | [.undef] => ""
    | [x] => jsToString x
    | .null :: xs => "," ++ joinElems xs
    | .undef :: xs => "," ++ joinElems xs
    | x :: xs => jsToString x ++ "," ++ joinElems xs

/-- Field lookup on a JS object field list; absent keys read as `undefined`. -/
def lookupD (fields : List (String × JsVal)) (k : String) : JsVal :=
  (fields.lookup k).getD undef

/-- Optional-chained property access `v?.k` (also the behaviour of plain
access on any non-nullish receiver): reads the field of an object,
`undefined` on every other receiver, never throws. -/
def optField : JsVal → String → JsVal
  | .obj fs, k => lookupD fs k
  | _, _ => undef

/-- Plain property access `v.k`: throws a `TypeError` when the receiver is
`null` or `undefined`, otherwise behaves like `optField`. -/
def getField : JsVal → String → Except Unit JsVal
  | .null, _ => .error ()
  | .undef, _ => .error ()
  | v, k => .ok (v.optField k)

/-- JS object key assignment `o[k] = v`: overwrites the existing binding in
place, otherwise appends a new one (JS keeps first-insertion key order). -/
def objSet (fields : List (String × JsVal)) (k : String) (v : JsVal) :
    List (String × JsVal) :=
  if fields.any (fun p => p.1 == k) then
    fields.map (fun p => if p.1 == k then (k, v) else p)
  else
    fields ++ [(k, v)]

/-- Conditional assignment, `if (b) { o[k] = v }`. -/
def addIf (b : Bool) (fields : List (String × JsVal)) (k : String) (v : JsVal) :
    List (String × JsVal) :=
  if b then objSet fields k v else fields

/-- Key-presence test (`k in o`). -/
def hasKey (fields : List (String × JsVal)) (k : String) : Bool :=
  fields.any (fun p => p.1 == k)

/-- JS `ToNumber` on the non-string primitives that can reach `+` here. -/
def toNum? : JsVal → Option Int
  | .num n => some n
  | .bool b => some (if b then 1 else 0)
  | .null => some 0
  | _ => none

/-- The JS `+` operator on the value space of this program: if either
operand converts to a string primitive (strings, arrays, objects), the
result is string concatenation; otherwise numeric addition, with `NaN`
when an operand is `undefined` or `NaN`. -/
def jsAdd (a b : JsVal) : JsVal :=
  match a, b with
  | .str _, _ | _, .str _ | .arr _, _ | _, .arr _ | .obj _, _ | _, .obj _ =>
    .str (jsToString a ++ jsToString b)
  | _, _ =>
    match toNum? a, toNum? b with
    | some x, some y => .num (x + y)
    | _, _ => .nan

end JsVal

open JsVal

/-! ## Configuration model

The Dynamo provider validates configs with
`dynamoDeploymentConfigSchema = baseDeploymentConfigSchema.extend({})`
(`backend/src/providers/dynamo/schema.ts`): it adds no constraint of its
own.  The shared base schema file is not part of the sources, so its
shape is taken from the specification. -/

/-- Modelled from the spec: the serving-engine enumeration of the shared
base config schema, `engine (one of a small enumerated set: vllm |
sglang | trtllm | llamacpp)` (§3 DATA MODEL).  The Dynamo schema in the
sources extends the base schema without narrowing this field. -/
inductive Engine where
  | vllm
  | sglang
  | trtllm
  | llamacpp
deriving Repr, DecidableEq

/-- Serving-topology mode (`'aggregated' | 'disaggregated'`). -/
inductive Mode where
  | aggregated
  | disaggregated
deriving Repr, DecidableEq

/-- Frontend router mode (`'none' | 'kv' | 'round-robin'`). -/
inductive RouterMode where
  | none
  | kv
  | roundRobin
deriving Repr, DecidableEq

/-- The string value written for a router mode (`config.routerMode` is the
string itself in the source). -/
def RouterMode.toStr : RouterMode → String
  | .none => "none"
  | .kv => "kv"
  | .roundRobin => "round-robin"

/-- Worker role in disaggregated mode (`'prefill' | 'decode'`). -/
inductive Role where
  | prefill
  | decode
deriving Repr, DecidableEq

/-- The string value of a role (used for `disaggregation-mode`). -/
def Role.toStr : Role → String
  | .prefill => "prefill"
  | .decode => "decode"

/-- `resources` sub-object of a config (`{gpu, memory?}`). -/
structure Resources where
  gpu : Int
  memory : Option String
deriving Repr, DecidableEq

/-- Modelled from the spec: the runtime-agnostic `DeploymentConfig` field
shape of the shared base schema (§3 DATA MODEL), restricted to the fields
the Dynamo provider reads.  Optional fields are `Option`s; `engineArgs`
is an open ordered key→scalar mapping (`Object.entries` order). -/
structure DynamoDeploymentConfig where
  name : String
  /-- source field `namespace` (a Lean keyword) -/
  nspace : String
  modelId : String
  servedModelName : Option String
  engine : Engine
  mode : Mode
  routerMode : RouterMode
  replicas : Option Int
  prefillReplicas : Option Int
  decodeReplicas : Option Int
  prefillGpus : Option Int
  decodeGpus : Option Int
  resources : Option Resources
  hfTokenSecret : String
  enforceEager : Bool
  enablePrefixCaching : Bool
  trustRemoteCode : Bool
  contextLength : Option Int
  engineArgs : Option (List (String × JsVal))

/-- `config.x || fallback` on an optional numeric config field (JS `||`
treats `0` and absence as falsy). -/
def jsOrInt (o : Option Int) (d : Int) : Int :=
  match o with
  | some n => if n = 0 then d else n
  | none => d

/-- `config.x || fallback` on an optional string config field (JS `||`
treats `""` and absence as falsy). -/
def jsOrStr (o : Option String) (d : String) : String :=
  match o with
  | some s => if s = "" then d else s
  | none => d

/-- JS number-to-JsVal for a field copied verbatim from an optional config
field (`replicas: config.replicas` leaves `undefined` in place). -/
def jsOfOptInt : Option Int → JsVal
  | some n => .num n
  | none => undef

/-- Modelled from the spec: the validation invariants of the base schema
(§3 DATA MODEL): `mode = disaggregated` requires the prefill/decode
sizing fields (positive integers); `mode = aggregated` requires
`replicas` (positive) and `resources.gpu` (non-negative); JS object keys
of `engineArgs` are unique. -/
def validatedB (c : DynamoDeploymentConfig) : Bool :=
  (match c.mode with
   | .aggregated =>
     (match c.replicas with | some n => decide (0 < n) | none => false) &&
     c.resources.isSome
   | .disaggregated =>
     (match c.prefillReplicas with | some n => decide (0 < n) | none => false) &&
     (match c.decodeReplicas with | some n => decide (0 < n) | none => false) &&
     (match c.prefillGpus with | some n => decide (0 < n) | none => false) &&
     (match c.decodeGpus with | some n => decide (0 < n) | none => false)) &&
  (match c.resources with | some r => decide (0 ≤ r.gpu) | none => true) &&
  (match c.engineArgs with
   | some args => decide (args.map Prod.fst).Nodup
   | none => true)

/-! ## Manifest generation (`DynamoProvider`, `index.ts` lines 31–257) -/

/-- `generateFrontendSpec` (lines 95–111): `{replicas: 1, 'http-port': 8000}`
plus `router-mode` unless the (possibly upgraded) router mode is `none`. -/
def generateFrontendSpec (c : DynamoDeploymentConfig) : List (String × JsVal) :=
  let spec : List (String × JsVal) := [("replicas", .num 1), ("http-port", .num 8000)]
  -- Use round-robin router for disaggregated mode if not specified
  let routerMode :=
    if c.mode = .disaggregated && c.routerMode = .none then RouterMode.roundRobin
    else c.routerMode
  if routerMode ≠ .none then objSet spec "router-mode" (.str routerMode.toStr)
  else spec

/-- The `// Add common options` block shared verbatim by
`generateWorkerSpec` (lines 127–142) and `generateDisaggregatedWorkerSpec`
(lines 208–223): conditionally adds `enforce-eager`,
`enable-prefix-caching`, `trust-remote-code` and `max-model-len`. -/
def withCommonOpts (c : DynamoDeploymentConfig) (l : List (String × JsVal)) :
    List (String × JsVal) :=
  let l := addIf c.enforceEager l "enforce-eager" (.bool true)
  let l := addIf c.enablePrefixCaching l "enable-prefix-caching" (.bool true)
  let l := addIf c.trustRemoteCode l "trust-remote-code" (.bool true)
  addIf (match c.contextLength with | some n => n ≠ 0 | none => false)
    l "max-model-len" (.num (c.contextLength.getD 0))

/-- The `// Add engine-specific arguments` block shared verbatim by both
worker-spec generators: `Object.entries(config.engineArgs)` assigned in
order, overwriting earlier keys. -/
def withEngineArgs (c : DynamoDeploymentConfig) (l : List (String × JsVal)) :
    List (String × JsVal) :=
  match c.engineArgs with
  | some args => args.foldl (fun acc kv => objSet acc kv.1 kv.2) l
  | none => l

/-- `memory` entry of a resource-limits object: the spread
`...(mem && { memory: mem })` adds the key only when `mem` is truthy. -/
def memoryField (mem : Option String) : List (String × JsVal) :=
  match mem with
  | some m => if m ≠ "" then [("memory", .str m)] else []
  | none => []

/-- Initial object literal of `generateWorkerSpec` (lines 114–125). -/
def awBaseSpec (c : DynamoDeploymentConfig) : List (String × JsVal) :=
  [ ("model-path", .str c.modelId),
    ("served-model-name", .str (jsOrStr c.servedModelName c.modelId)),
    ("replicas", jsOfOptInt c.replicas),
    ("envFrom", .arr [.obj [("secretRef", .obj [("name", .str c.hfTokenSecret)])]]) ]

/-- The `// Add resource requirements` block of `generateWorkerSpec`
(lines 144–152). -/
def withResources (c : DynamoDeploymentConfig) (l : List (String × JsVal)) :
    List (String × JsVal) :=
  match c.resources with
  | some r =>
    objSet l "resources"
      (.obj [("limits", .obj (("nvidia.com/gpu", .num r.gpu) :: memoryField r.memory))])
  | none => l

/-- The fully merged aggregated worker spec body (lines 114–159). -/
def awMerged (c : DynamoDeploymentConfig) : List (String × JsVal) :=
  withEngineArgs c (withResources c (withCommonOpts c (awBaseSpec c)))

/-- `generateWorkerSpec` (lines 113–172, aggregated mode): the merged base
spec under the engine-specific worker key (vLLM key as the `default`
fallback). -/
def generateWorkerSpec (c : DynamoDeploymentConfig) : String × List (String × JsVal) :=
  -- Return with appropriate worker key based on engine
  match c.engine with
  | .vllm => ("VllmWorker", awMerged c)
  | .sglang => ("SglangWorker", awMerged c)
  | .trtllm => ("TrtllmWorker", awMerged c)
  | .llamacpp => ("VllmWorker", awMerged c)

/-- Initial object literal of `generateDisaggregatedWorkerSpec`
(lines 185–206): per-role base spec with `|| 1` defaults for replicas and
GPUs and an unconditional `resources` block. -/
def dwBaseSpec (c : DynamoDeploymentConfig) (role : Role) : List (String × JsVal) :=
  let isPrefill := role = Role.prefill
  let replicas := jsOrInt (if isPrefill then c.prefillReplicas else c.decodeReplicas) 1
  let gpus := jsOrInt (if isPrefill then c.prefillGpus else c.decodeGpus) 1
  [ ("model-path", .str c.modelId),
    ("served-model-name", .str (jsOrStr c.servedModelName c.modelId)),
    ("replicas", .num replicas),
    ("envFrom", .arr [.obj [("secretRef", .obj [("name", .str c.hfTokenSecret)])]]),
    ("resources", .obj [("limits", .obj (("nvidia.com/gpu", .num gpus) ::
      memoryField (match c.resources with | some r => r.memory | none => none)))]) ]

/-- The merged disaggregated worker spec body before the engine-specific
disaggregation flags (lines 189–230). -/
def dwMerged (c : DynamoDeploymentConfig) (role : Role) : List (String × JsVal) :=
  withEngineArgs c (withCommonOpts c (dwBaseSpec c role))

/-- `generateDisaggregatedWorkerSpec` continued (lines 232–257). -/
def generateDisaggregatedWorkerSpec (c : DynamoDeploymentConfig) (role : Role) :
    String × List (String × JsVal) :=
  let isPrefill := role = Role.prefill
  let baseSpec := dwMerged c role
  -- Add engine-specific disaggregation flags; the key is the template
  -- literal `<Engine>${isPrefill ? 'Prefill' : 'Decode'}Worker`
  match c.engine with
  | .vllm =>
    -- vLLM uses --is-prefill-worker flag for prefill workers only
    (if isPrefill then "VllmPrefillWorker" else "VllmDecodeWorker",
      addIf isPrefill baseSpec "is-prefill-worker" (.bool true))
  | .sglang =>
    -- SGLang uses --disaggregation-mode prefill|decode
    (if isPrefill then "SglangPrefillWorker" else "SglangDecodeWorker",
      objSet baseSpec "disaggregation-mode" (.str role.toStr))
  | .trtllm =>
    -- TRT-LLM uses --disaggregation-mode prefill|decode
    (if isPrefill then "TrtllmPrefillWorker" else "TrtllmDecodeWorker",
      objSet baseSpec "disaggregation-mode" (.str role.toStr))
  | .llamacpp =>
    -- `default` branch: vLLM-shaped
    (if isPrefill then "VllmPrefillWorker" else "VllmDecodeWorker",
      addIf isPrefill baseSpec "is-prefill-worker" (.bool true))

/-- `metadata` object shared by both manifest shapes (lines 50–58, 78–86). -/
def manifestMetadata (c : DynamoDeploymentConfig) : JsVal :=
  .obj [ ("name", .str c.name),
         ("namespace", .str c.nspace),
         ("labels", .obj [ ("app.kubernetes.io/name", .str "kubefoundry"),
                           ("app.kubernetes.io/instance", .str c.name),
                           ("app.kubernetes.io/managed-by", .str "kubefoundry") ]) ]

/-- `generateManifest` (lines 31–93): dispatch on `mode`; the `spec` object
is `{ Frontend, ...workerSpec }` resp. `{ Frontend, ...prefill, ...decode }`. -/
def generateManifest (c : DynamoDeploymentConfig) : JsVal :=
  if c.mode = .disaggregated then
    let p := generateDisaggregatedWorkerSpec c .prefill
    let d := generateDisaggregatedWorkerSpec c .decode
    .obj [ ("apiVersion", .str "dynamo.nvidia.com/v1alpha1"),
           ("kind", .str "DynamoGraphDeployment"),
           ("metadata", manifestMetadata c),
           ("spec", .obj (objSet (objSet [("Frontend", .obj (generateFrontendSpec c))]
             p.1 (.obj p.2)) d.1 (.obj d.2))) ]
  else
    let w := generateWorkerSpec c
    .obj [ ("apiVersion", .str "dynamo.nvidia.com/v1alpha1"),
           ("kind", .str "DynamoGraphDeployment"),
           ("metadata", manifestMetadata c),
           ("spec", .obj (objSet [("Frontend", .obj (generateFrontendSpec c))]
             w.1 (.obj w.2))) ]

/-! ## Status parsing (`DynamoProvider.parseStatus`, `index.ts` lines 259–376)

The source destructures an `unknown` value with optional chaining and
`||` defaults.  The runtime values that land in the result fields are
whatever the raw document held, so the corresponding record fields are
`JsVal`s; `engine` and `mode` are assigned only from literals and are
real enumerations.  Plain property accesses on the top-level value
(`obj.metadata`, `obj.spec`, `obj.status`) and on each element of the
conditions array (`c.type`, …) throw a `TypeError` on `null`/`undefined`
receivers, hence the `Except` result. -/

/-- One parsed condition (element of `DeploymentStatus.conditions`). -/
structure ParsedCondition where
  type : JsVal
  status : JsVal
  reason : JsVal
  message : JsVal
  lastTransitionTime : JsVal
deriving Repr

/-- `replicas` sub-record of a `DeploymentStatus`. -/
structure ReplicaCounts where
  desired : JsVal
  ready : JsVal
  available : JsVal
deriving Repr

/-- prefill/decode replica sub-record (disaggregated mode only). -/
structure RoleReplicaCounts where
  desired : JsVal
  ready : JsVal
deriving Repr

/-- The uniform status model built by `parseStatus`. -/
structure DeploymentStatus where
  name : JsVal
  /-- source field `namespace` (a Lean keyword) -/
  nspace : JsVal
  modelId : JsVal
  engine : Engine
  mode : Mode
  phase : JsVal
  replicas : ReplicaCounts
  conditions : List ParsedCondition
  pods : List JsVal
  createdAt : JsVal
  frontendService : String
  prefillReplicas : Option RoleReplicaCounts
  decodeReplicas : Option RoleReplicaCounts
deriving Repr

/-- `(status.conditions || []).map((c) => ({...}))` element body: plain
accesses on `c` (throwing on nullish `c`), then field-level defaults. -/
def parseCondition (c : JsVal) : Except Unit ParsedCondition := do
  let t ← c.getField "type"
  let s ← c.getField "status"
  let r ← c.getField "reason"
  let m ← c.getField "message"
  let lt ← c.getField "lastTransitionTime"
  .ok { type := jsOr t (.str ""),
        status := jsOr s (.str "Unknown"),
        reason := r,
        message := m,
        lastTransitionTime := lt }

/-- `.map` over the (defaulted) conditions value: a `TypeError` unless the
receiver is an array. -/
def parseConditions (v : JsVal) : Except Unit (List ParsedCondition) :=
  match v with
  | .arr xs => xs.mapM parseCondition
  | _ => .error ()

/-- The engine/mode/modelId/replica-detection if-chain of `parseStatus`
(lines 294–337), returning
`(engine, mode, modelId, desiredReplicas, prefillDesired, decodeDesired)`. -/
def detectWorkers (spec : JsVal) :
    Engine × Mode × JsVal × JsVal × JsVal × JsVal :=
  let vpw := spec.optField "VllmPrefillWorker"
  let vdw := spec.optField "VllmDecodeWorker"
  let spw := spec.optField "SglangPrefillWorker"
  let sdw := spec.optField "SglangDecodeWorker"
  let tpw := spec.optField "TrtllmPrefillWorker"
  let tdw := spec.optField "TrtllmDecodeWorker"
  let vw := spec.optField "VllmWorker"
  let sw := spec.optField "SglangWorker"
  let tw := spec.optField "TrtllmWorker"
  -- Check for disaggregated workers first
  if vpw.truthy || vdw.truthy then
    let prefillDesired := jsOr (vpw.optField "replicas") (.num 0)
    let decodeDesired := jsOr (vdw.optField "replicas") (.num 0)
    (.vllm, .disaggregated,
      jsOr (vpw.optField "model-path") (jsOr (vdw.optField "model-path") (.str "")),
      jsAdd prefillDesired decodeDesired, prefillDesired, decodeDesired)
  else if spw.truthy || sdw.truthy then
    let prefillDesired := jsOr (spw.optField "replicas") (.num 0)
    let decodeDesired := jsOr (sdw.optField "replicas") (.num 0)
    (.sglang, .disaggregated,
      jsOr (spw.optField "model-path") (jsOr (sdw.optField "model-path") (.str "")),
      jsAdd prefillDesired decodeDesired, prefillDesired, decodeDesired)
  else if tpw.truthy || tdw.truthy then
    let prefillDesired := jsOr (tpw.optField "replicas") (.num 0)
    let decodeDesired := jsOr (tdw.optField "replicas") (.num 0)
    (.trtllm, .disaggregated,
      jsOr (tpw.optField "model-path") (jsOr (tdw.optField "model-path") (.str "")),
      jsAdd prefillDesired decodeDesired, prefillDesired, decodeDesired)
  else if vw.truthy then
    (.vllm, .aggregated, jsOr (vw.optField "model-path") (.str ""),
      jsOr (vw.optField "replicas") (.num 1), .num 0, .num 0)
  else if sw.truthy then
    (.sglang, .aggregated, jsOr (sw.optField "model-path") (.str ""),
      jsOr (sw.optField "replicas") (.num 1), .num 0, .num 0)
  else if tw.truthy then
    (.trtllm, .aggregated, jsOr (tw.optField "model-path") (.str ""),
      jsOr (tw.optField "replicas") (.num 1), .num 0, .num 0)
  else
    (.vllm, .aggregated, .str "", .num 1, .num 0, .num 0)

/-- The pure result construction of `parseStatus` (lines 294–375), given
the (defaulted) `metadata`, `spec` and `status` values and the already
mapped conditions list. -/
def parseStatusCore (now : String) (md spec status : JsVal)
    (conditions : List ParsedCondition) : DeploymentStatus :=
  let det := detectWorkers spec
  let engine := det.1
  let mode := det.2.1
  let modelId := det.2.2.1
  let desiredReplicas := det.2.2.2.1
  let prefillDesired := det.2.2.2.2.1
  let decodeDesired := det.2.2.2.2.2
  let base : DeploymentStatus :=
    { name := jsOr (md.optField "name") (.str "unknown"),
      nspace := jsOr (md.optField "namespace") (.str "default"),
      modelId := modelId,
      engine := engine,
      mode := mode,
      phase := jsOr (status.optField "phase") (.str "Pending"),
      replicas :=
        { desired := jsOr ((status.optField "replicas").optField "desired") desiredReplicas,
          ready := jsOr ((status.optField "replicas").optField "ready") (.num 0),
          available := jsOr ((status.optField "replicas").optField "available") (.num 0) },
      conditions := conditions,
      pods := [],
      createdAt := jsOr (md.optField "creationTimestamp") (.str now),
      frontendService := jsToString (md.optField "name") ++ "-frontend",
      prefillReplicas := none,
      decodeReplicas := none }
  -- Add disaggregated replica status if in disaggregated mode
  if mode = .disaggregated then
    { base with
      prefillReplicas := some
        { desired := jsOr ((status.optField "prefillReplicas").optField "desired") prefillDesired,
          ready := jsOr ((status.optField "prefillReplicas").optField "ready") (.num 0) },
      decodeReplicas := some
        { desired := jsOr ((status.optField "decodeReplicas").optField "desired") decodeDesired,
          ready := jsOr ((status.optField "decodeReplicas").optField "ready") (.num 0) } }
  else
    base

/-- `parseStatus(raw)` (lines 259–376).  `now` stands for the value of
`new Date().toISOString()` used when `metadata.creationTimestamp` is
falsy.  The fallible part is the three plain property accesses on the
top-level value and the `.map` over the conditions; the rest is
`parseStatusCore`. -/
def parseStatus (now : String) (raw : JsVal) : Except Unit DeploymentStatus := do
  let md ← raw.getField "metadata"
  let specV ← raw.getField "spec"
  let statusV ← raw.getField "status"
  let spec := jsOr specV (.obj [])
  let status := jsOr statusV (.obj [])
  let conditions ← parseConditions (jsOr (status.optField "conditions") (.arr []))
  .ok (parseStatusCore now md spec status conditions)

/-! ## Cross-namespace listing (`routes/deployments.ts`, `GET /` handler)

The handler fans out `kubernetesService.listDeployments(ns)` over the
de-duplicated provider default namespaces with `Promise.all`, flattens,
sorts by `createdAt` descending, and paginates.  `kubernetesService` is
not part of the sources; per the specification it is an asynchronous
call whose cluster errors propagate unchanged (§5, §7c), so it is
modelled as a function `String → Except Unit (List DeploymentStatus)`.
`new Date(x).getTime()` is modelled as an abstract `getTime` parameter.
Any rejection makes `Promise.all` reject, landing in the handler's
`catch`, which returns the empty response. -/

/-- `pagination` sub-object of the handler response. -/
structure Pagination where
  total : Nat
  limit : Nat
  offset : Nat
  hasMore : Bool
deriving Repr, DecidableEq

/-- The JSON body produced by the `GET /` handler. -/
structure ListResponse where
  deployments : List DeploymentStatus
  pagination : Pagination
deriving Repr

/-- `[...new Set(xs)]`: de-duplication keeping first occurrences in
insertion order. -/
def jsSetDedup (l : List String) : List String :=
  l.foldl (fun acc x => if acc.contains x then acc else acc ++ [x]) []

/-- `Promise.all`: succeeds with all results iff every promise succeeds. -/
def promiseAll : List (Except Unit α) → Except Unit (List α)
  | [] => .ok []
  | x :: xs => do
    let v ← x
    let rest ← promiseAll xs
    .ok (v :: rest)

/-- The comparator `(a, b) => dateB - dateA` sorts by `createdAt`
descending: `a` may precede `b` iff `time b ≤ time a`. -/
def createdDescLe (getTime : JsVal → Int) (a b : DeploymentStatus) : Bool :=
  getTime b.createdAt ≤ getTime a.createdAt

/-- The `GET /` handler body for the no-namespace-filter branch
(`routes/deployments.ts`): fan out, flatten, sort newest-first, then
apply `offset`/`limit` and report pagination metadata.  ECMAScript
`Array.prototype.sort` is stable; it is modelled by `List.mergeSort`. -/
def listDeploymentsHandler (getTime : JsVal → Int) (namespaces : List String)
    (fetch : String → Except Unit (List DeploymentStatus))
    (limit offset : Option Nat) : ListResponse :=
  let uniqueNamespaces := jsSetDedup namespaces
  match promiseAll (uniqueNamespaces.map fetch) with
  | .error _ =>
    -- catch path: logs and returns the empty response
    { deployments := [], pagination := { total := 0, limit := 0, offset := 0, hasMore := false } }
  | .ok results =>
    -- merge and flatten, then sort by creation time (newest first)
    let dl := results.foldl (fun acc r => acc ++ r) []
    let sorted := dl.mergeSort (createdDescLe getTime)
    let total := sorted.length
    -- apply pagination: slice(start, limit ? start + limit : undefined)
    let paged :=
      if limit.isSome || offset.isSome then
        let start := offset.getD 0
        match limit with
        | some l => if l ≠ 0 then (sorted.drop start).take l else sorted.drop start
        | none => sorted.drop start
      else sorted
    { deployments := paged,
      pagination :=
        { total := total,
          limit := match limit with | some l => if l = 0 then total else l | none => total,
          offset := offset.getD 0,
          hasMore := decide (offset.getD 0 + paged.length < total) } }

/-! ## Lemma toolkit for object field lists -/

namespace JsVal

theorem lookup_map_replace (k : String) (v : JsVal) :
    ∀ l : List (String × JsVal), l.any (fun p => p.1 == k) = true →
      List.lookup k (l.map (fun p => if p.1 == k then (k, v) else p)) = some v := by
  intro l
  induction l with
  | nil => intro h; simp at h
  | cons p ps ih =>
    obtain ⟨pk, pv⟩ := p
    intro h
    by_cases hp : pk = k
    · subst hp
      simp [List.lookup_cons]
    · have hpb : (pk == k) = false := beq_eq_false_iff_ne.mpr hp
      have hkp : (k == pk) = false := beq_eq_false_iff_ne.mpr (Ne.symm hp)
      have hps : ps.any (fun p => p.1 == k) = true := by
        simpa [hpb] using h
      simpa [List.lookup_cons, hp, hpb, hkp] using ih hps

theorem lookup_append_single (k : String) (v : JsVal) :
    ∀ l : List (String × JsVal), l.any (fun p => p.1 == k) = false →
      List.lookup k (l ++ [(k, v)]) = some v := by
  intro l
  induction l with
  | nil => simp [List.lookup_cons]
  | cons p ps ih =>
    obtain ⟨pk, pv⟩ := p
    intro h
    simp only [List.any_cons, Bool.or_eq_false_iff] at h
    have hkp : (k == pk) = false := by
      have h1 : pk ≠ k := beq_eq_false_iff_ne.mp h.1
      exact beq_eq_false_iff_ne.mpr (Ne.symm h1)
    simpa [List.lookup_cons, hkp] using ih h.2

/-- After `o[k] = v`, reading `k` yields `v`. -/
theorem lookup_objSet_self (l : List (String × JsVal)) (k : String) (v : JsVal) :
    List.lookup k (objSet l k v) = some v := by
  unfold objSet
  cases ha : l.any (fun p => p.1 == k) with
  | true => simpa [ha] using lookup_map_replace k v l ha
  | false => simpa [ha] using lookup_append_single k v l ha

theorem lookup_map_replace_ne (k : String) (v : JsVal) (k2 : String) (h : k2 ≠ k) :
    ∀ l : List (String × JsVal),
      List.lookup k2 (l.map (fun p => if p.1 == k then (k, v) else p)) =
        List.lookup k2 l := by
  intro l
  induction l with
  | nil => rfl
  | cons p ps ih =>
    obtain ⟨pk, pv⟩ := p
    by_cases hp : pk = k
    · subst hp
      have hk2 : (k2 == pk) = false := beq_eq_false_iff_ne.mpr h
      simpa [List.lookup_cons, hk2] using ih
    · have hpb : (pk == k) = false := beq_eq_false_iff_ne.mpr hp
      cases hk2 : (k2 == pk) with
      | true => simp [List.lookup_cons, hp, hpb, hk2, beq_iff_eq.mp hk2]
      | false => simpa [List.lookup_cons, hp, hpb, hk2] using ih

/-- `o[k] = v` does not change reads of other keys. -/
theorem lookup_objSet_ne (l : List (String × JsVal)) (k : String) (v : JsVal)
    (k2 : String) (h : k2 ≠ k) :
    List.lookup k2 (objSet l k v) = List.lookup k2 l := by
  unfold objSet
  cases ha : l.any (fun p => p.1 == k) with
  | true => simpa [ha] using lookup_map_replace_ne k v k2 h l
  | false =>
    simp only [ha, Bool.false_eq_true, if_false]
    clear ha
    induction l with
    | nil => simp [List.lookup_cons, beq_eq_false_iff_ne.mpr h]
    | cons p ps ih =>
      obtain ⟨pk, pv⟩ := p
      cases hk2 : (k2 == pk) with
      | true => simp [List.lookup_cons, hk2]
      | false => simpa [List.lookup_cons, hk2] using ih

/-- `if (b) { o[k] = v }` does not change reads of other keys. -/
theorem lookup_addIf_ne (b : Bool) (l : List (String × JsVal)) (k : String)
    (v : JsVal) (k2 : String) (h : k2 ≠ k) :
    List.lookup k2 (addIf b l k v) = List.lookup k2 l := by
  cases b with
  | true => exact lookup_objSet_ne l k v k2 h
  | false => rfl

/-- A fold of assignments over entries none of which bind `k` leaves
reads of `k` unchanged. -/
theorem lookup_foldl_objSet_not_mem (k : String) :
    ∀ (args : List (String × JsVal)) (l : List (String × JsVal)),
      k ∉ args.map Prod.fst →
      List.lookup k (args.foldl (fun acc kv => objSet acc kv.1 kv.2) l) =
        List.lookup k l := by
  intro args
  induction args with
  | nil => intro l _; rfl
  | cons a as ih =>
    intro l h
    simp only [List.map_cons, List.mem_cons, not_or] at h
    simp only [List.foldl_cons]
    rw [ih (objSet l a.1 a.2) h.2, lookup_objSet_ne l a.1 a.2 k h.1]

/-- A fold of assignments over entries with pairwise-distinct keys makes
each entry readable afterwards: the entry value wins over anything in the
base object. -/
theorem lookup_foldl_objSet_mem (k : String) (v : JsVal) :
    ∀ (args : List (String × JsVal)) (l : List (String × JsVal)),
      (args.map Prod.fst).Nodup → (k, v) ∈ args →
      List.lookup k (args.foldl (fun acc kv => objSet acc kv.1 kv.2) l) = some v := by
  intro args
  induction args with
  | nil => intro l _ hm; simp at hm
  | cons a as ih =>
    intro l hnd hm
    simp only [List.map_cons, List.nodup_cons] at hnd
    simp only [List.foldl_cons]
    rcases List.mem_cons.mp hm with he | ht
    · subst he
      rw [lookup_foldl_objSet_not_mem k as (objSet l k v) (by simpa using hnd.1)]
      exact lookup_objSet_self l k v
    · exact ih (objSet l a.1 a.2) hnd.2 ht

end JsVal

/-- `withCommonOpts` only ever assigns its four option keys. -/
theorem lookup_withCommonOpts_ne (c : DynamoDeploymentConfig)
    (l : List (String × JsVal)) (k : String)
    (h1 : k ≠ "enforce-eager") (h2 : k ≠ "enable-prefix-caching")
    (h3 : k ≠ "trust-remote-code") (h4 : k ≠ "max-model-len") :
    List.lookup k (withCommonOpts c l) = List.lookup k l := by
  unfold withCommonOpts
  rw [JsVal.lookup_addIf_ne _ _ _ _ _ h4, JsVal.lookup_addIf_ne _ _ _ _ _ h3,
    JsVal.lookup_addIf_ne _ _ _ _ _ h2, JsVal.lookup_addIf_ne _ _ _ _ _ h1]

/-- `withEngineArgs` leaves keys that `engineArgs` does not bind unchanged. -/
theorem lookup_withEngineArgs_ne (c : DynamoDeploymentConfig)
    (l : List (String × JsVal)) (k : String)
    (h : ∀ args, c.engineArgs = some args → k ∉ args.map Prod.fst) :
    List.lookup k (withEngineArgs c l) = List.lookup k l := by
  unfold withEngineArgs
  cases hE : c.engineArgs with
  | none => rfl
  | some args => exact JsVal.lookup_foldl_objSet_not_mem k args l (h args hE)

/-- `withEngineArgs` makes every `engineArgs` entry win over the base spec. -/
theorem lookup_withEngineArgs_mem (c : DynamoDeploymentConfig)
    (l : List (String × JsVal)) (args : List (String × JsVal))
    (k : String) (v : JsVal) (hE : c.engineArgs = some args)
    (hnd : (args.map Prod.fst).Nodup) (hm : (k, v) ∈ args) :
    List.lookup k (withEngineArgs c l) = some v := by
  unfold withEngineArgs
  rw [hE]
  exact JsVal.lookup_foldl_objSet_mem k v args l hnd hm

/-! ## Concrete configurations used by witnesses and counterexamples -/

/-- The aggregated example config of the spec (§8): vLLM, 2 replicas,
1 GPU, `enforce-eager`. -/
def baseCfg : DynamoDeploymentConfig :=
  { name := "qwen-test", nspace := "dynamo-system", modelId := "Qwen/Qwen3-0.6B",
    servedModelName := none, engine := .vllm, mode := .aggregated,
    routerMode := .none, replicas := some 2, prefillReplicas := none,
    decodeReplicas := none, prefillGpus := none, decodeGpus := none,
    resources := some { gpu := 1, memory := none },
    hfTokenSecret := "hf-token-secret", enforceEager := true,
    enablePrefixCaching := false, trustRemoteCode := false,
    contextLength := none, engineArgs := none }

/-- A validated disaggregated vLLM config (prefill 2×1 GPU, decode 3×2 GPU). -/
def disaggCfg : DynamoDeploymentConfig :=
  { baseCfg with
    mode := .disaggregated, prefillReplicas := some 2, decodeReplicas := some 3,
    prefillGpus := some 1, decodeGpus := some 2 }

/-! ## C6: router-mode upgrade for disaggregated configs -/

/-- C6: for every validated config with `mode = disaggregated` and
`routerMode = "none"`, the generated manifest's `Frontend` spec carries
`router-mode = "round-robin"` (the upgrade happens inside generation,
which is a total function, not in validation). -/
theorem c6_disaggregated_router_upgraded_to_round_robin
    (c : DynamoDeploymentConfig) (hv : validatedB c = true)
    (hm : c.mode = .disaggregated) (hr : c.routerMode = RouterMode.none) :
    (((generateManifest c).optField "spec").optField "Frontend").optField "router-mode"
      = JsVal.str "round-robin" := by
  obtain ⟨nm, ns, mid, smn, eng, mode, rm, rep, pr, dr, pg, dg, res, hf, ee, epc, trc, cl, ea⟩ := c
  simp only at hm hr
  subst hm
  subst hr
  cases eng <;> rfl

/-- Witness for C6 at a concrete validated config. -/
theorem c6_disaggregated_router_upgraded_to_round_robin_witness :
    validatedB disaggCfg = true ∧
      disaggCfg.mode = .disaggregated ∧ disaggCfg.routerMode = RouterMode.none ∧
      (((generateManifest disaggCfg).optField "spec").optField "Frontend").optField
          "router-mode" = JsVal.str "round-robin" :=
  ⟨by decide, rfl, rfl,
    c6_disaggregated_router_upgraded_to_round_robin disaggCfg (by decide) rfl rfl⟩

/-! ## C3: round-trip of `engine` and `mode` through generate/parse -/

/-- The aggregated example config with the `llamacpp` engine (validated by
the base schema, unrecognized by the Dynamo provider's worker-key
dispatch, which falls back to the vLLM-shaped key). -/
def llamaCfg : DynamoDeploymentConfig :=
  { baseCfg with engine := .llamacpp }

/-- C3 counterexample: the claim fails for a validated config whose engine
is `llamacpp`: generation falls back to the vLLM worker key (source lines
169–170), so `parseStatus` recovers engine `vllm`, not `llamacpp`. -/
theorem c3_roundtrip_counterexample :
    validatedB llamaCfg = true ∧ llamaCfg.engine = Engine.llamacpp ∧
      (parseStatus "T" (generateManifest llamaCfg)).map (fun r => (r.engine, r.mode))
        = Except.ok (Engine.vllm, Mode.aggregated) ∧
      Engine.vllm ≠ Engine.llamacpp :=
  ⟨by decide, rfl, rfl, by decide⟩

/-- C3 (amended): for every validated config whose engine is one of the
three recognized engines (vllm, sglang, trtllm), parsing the generated
manifest (whose `status` sub-object is absent) recovers the original
`engine` and `mode`; `mode` is recovered even for the `llamacpp`
fallback. -/
theorem c3_roundtrip_engine_mode (now : String) (c : DynamoDeploymentConfig)
    (hv : validatedB c = true) (he : c.engine ≠ Engine.llamacpp) :
    (parseStatus now (generateManifest c)).map (fun r => (r.engine, r.mode))
      = Except.ok (c.engine, c.mode) := by
  obtain ⟨nm, ns, mid, smn, eng, mode, rm, rep, pr, dr, pg, dg, res, hf, ee, epc, trc, cl, ea⟩ := c
  cases eng with
  | llamacpp => exact absurd rfl he
  | vllm => cases mode <;> rfl
  | sglang => cases mode <;> rfl
  | trtllm => cases mode <;> rfl

/-- Witness for C3 (amended) at the spec's aggregated example config. -/
theorem c3_roundtrip_engine_mode_witness :
    validatedB baseCfg = true ∧ baseCfg.engine ≠ Engine.llamacpp ∧
      (parseStatus "T" (generateManifest baseCfg)).map (fun r => (r.engine, r.mode))
        = Except.ok (Engine.vllm, Mode.aggregated) :=
  ⟨by decide, by decide, c3_roundtrip_engine_mode "T" baseCfg (by decide) (by decide)⟩

/-! ## Unfolding lemmas for `generateDisaggregatedWorkerSpec` -/

theorem dwSpec_vllm_prefill (c : DynamoDeploymentConfig) (he : c.engine = Engine.vllm) :
    generateDisaggregatedWorkerSpec c .prefill
      = ("VllmPrefillWorker",
          objSet (dwMerged c .prefill) "is-prefill-worker" (.bool true)) := by
  simp only [generateDisaggregatedWorkerSpec, he]
  rfl

theorem dwSpec_vllm_decode (c : DynamoDeploymentConfig) (he : c.engine = Engine.vllm) :
    generateDisaggregatedWorkerSpec c .decode = ("VllmDecodeWorker", dwMerged c .decode) := by
  simp only [generateDisaggregatedWorkerSpec, he]
  rfl

theorem dwSpec_sglang_prefill (c : DynamoDeploymentConfig) (he : c.engine = Engine.sglang) :
    generateDisaggregatedWorkerSpec c .prefill
      = ("SglangPrefillWorker",
          objSet (dwMerged c .prefill) "disaggregation-mode" (.str "prefill")) := by
  simp only [generateDisaggregatedWorkerSpec, he]
  rfl

theorem dwSpec_sglang_decode (c : DynamoDeploymentConfig) (he : c.engine = Engine.sglang) :
    generateDisaggregatedWorkerSpec c .decode
      = ("SglangDecodeWorker",
          objSet (dwMerged c .decode) "disaggregation-mode" (.str "decode")) := by
  simp only [generateDisaggregatedWorkerSpec, he]
  rfl

theorem dwSpec_trtllm_prefill (c : DynamoDeploymentConfig) (he : c.engine = Engine.trtllm) :
    generateDisaggregatedWorkerSpec c .prefill
      = ("TrtllmPrefillWorker",
          objSet (dwMerged c .prefill) "disaggregation-mode" (.str "prefill")) := by
  simp only [generateDisaggregatedWorkerSpec, he]
  rfl

theorem dwSpec_trtllm_decode (c : DynamoDeploymentConfig) (he : c.engine = Engine.trtllm) :
    generateDisaggregatedWorkerSpec c .decode
      = ("TrtllmDecodeWorker",
          objSet (dwMerged c .decode) "disaggregation-mode" (.str "decode")) := by
  simp only [generateDisaggregatedWorkerSpec, he]
  rfl

theorem dwSpec_llamacpp_prefill (c : DynamoDeploymentConfig)
    (he : c.engine = Engine.llamacpp) :
    generateDisaggregatedWorkerSpec c .prefill
      = ("VllmPrefillWorker",
          objSet (dwMerged c .prefill) "is-prefill-worker" (.bool true)) := by
  simp only [generateDisaggregatedWorkerSpec, he]
  rfl

theorem dwSpec_llamacpp_decode (c : DynamoDeploymentConfig)
    (he : c.engine = Engine.llamacpp) :
    generateDisaggregatedWorkerSpec c .decode = ("VllmDecodeWorker", dwMerged c .decode) := by
  simp only [generateDisaggregatedWorkerSpec, he]
  rfl

/-- Reading a key that neither the common-options block nor `engineArgs`
assigns goes through `dwMerged` to the initial object literal. -/
theorem lookup_dwMerged_eq_base (c : DynamoDeploymentConfig) (role : Role) (k : String)
    (h1 : k ≠ "enforce-eager") (h2 : k ≠ "enable-prefix-caching")
    (h3 : k ≠ "trust-remote-code") (h4 : k ≠ "max-model-len")
    (hargs : ∀ args, c.engineArgs = some args → k ∉ args.map Prod.fst) :
    List.lookup k (dwMerged c role) = List.lookup k (dwBaseSpec c role) := by
  unfold dwMerged
  rw [lookup_withEngineArgs_ne c _ k hargs, lookup_withCommonOpts_ne c _ k h1 h2 h3 h4]

/-! ## C7: engine-specific disaggregation flags -/

/-- Disaggregated vLLM config whose `engineArgs` sets `is-prefill-worker`
(allowed: `engineArgs` is an open mapping passed through verbatim). -/
def c7Cex : DynamoDeploymentConfig :=
  { disaggCfg with engineArgs := some [("is-prefill-worker", JsVal.bool true)] }

/-- C7 counterexample: the claim says the vLLM decode worker spec contains
no `is-prefill-worker` key, but an `engineArgs` entry of that name is
merged into the decode worker spec (source lines 226–230) and the decode
branch of the flag switch never removes it. -/
theorem c7_disaggregation_flags_counterexample :
    validatedB c7Cex = true ∧ c7Cex.engine = Engine.vllm ∧
      c7Cex.mode = Mode.disaggregated ∧
      List.lookup "is-prefill-worker" (generateDisaggregatedWorkerSpec c7Cex .decode).2
        = some (JsVal.bool true) :=
  ⟨by decide, rfl, rfl, rfl⟩

/-- C7 (amended): for every validated disaggregated config, the vLLM
prefill worker spec carries `is-prefill-worker: true`, and the vLLM
decode worker spec has no `is-prefill-worker` key *provided `engineArgs`
does not itself set that key*; sglang/trtllm worker specs carry
`disaggregation-mode` `"prefill"` / `"decode"` unconditionally.  The
final conjunct ties the two worker specs to the generated manifest. -/
theorem c7_disaggregation_flags (c : DynamoDeploymentConfig)
    (hv : validatedB c = true) (hm : c.mode = Mode.disaggregated) :
    (c.engine = Engine.vllm →
      List.lookup "is-prefill-worker" (generateDisaggregatedWorkerSpec c .prefill).2
          = some (JsVal.bool true) ∧
      ((∀ args, c.engineArgs = some args → "is-prefill-worker" ∉ args.map Prod.fst) →
        List.lookup "is-prefill-worker" (generateDisaggregatedWorkerSpec c .decode).2
          = none)) ∧
    (c.engine = Engine.sglang ∨ c.engine = Engine.trtllm →
      List.lookup "disaggregation-mode" (generateDisaggregatedWorkerSpec c .prefill).2
          = some (JsVal.str "prefill") ∧
      List.lookup "disaggregation-mode" (generateDisaggregatedWorkerSpec c .decode).2
          = some (JsVal.str "decode")) ∧
    (((generateManifest c).optField "spec").optField
        (generateDisaggregatedWorkerSpec c .prefill).1
        = JsVal.obj (generateDisaggregatedWorkerSpec c .prefill).2 ∧
      ((generateManifest c).optField "spec").optField
        (generateDisaggregatedWorkerSpec c .decode).1
        = JsVal.obj (generateDisaggregatedWorkerSpec c .decode).2) := by
  refine ⟨fun he => ⟨?_, fun hargs => ?_⟩, fun he => ?_, ?_⟩
  · simp only [dwSpec_vllm_prefill c he]
    exact JsVal.lookup_objSet_self _ _ _
  · simp only [dwSpec_vllm_decode c he]
    rw [lookup_dwMerged_eq_base c .decode "is-prefill-worker"
      (by decide) (by decide) (by decide) (by decide) hargs]
    rfl
  · rcases he with he | he
    · refine ⟨?_, ?_⟩
      · simp only [dwSpec_sglang_prefill c he]
        exact JsVal.lookup_objSet_self _ _ _
      · simp only [dwSpec_sglang_decode c he]
        exact JsVal.lookup_objSet_self _ _ _
    · refine ⟨?_, ?_⟩
      · simp only [dwSpec_trtllm_prefill c he]
        exact JsVal.lookup_objSet_self _ _ _
      · simp only [dwSpec_trtllm_decode c he]
        exact JsVal.lookup_objSet_self _ _ _
  · obtain ⟨nm, ns, mid, smn, eng, mode, rm, rep, pr, dr, pg, dg, res, hf, ee, epc, trc, cl, ea⟩ := c
    simp only at hm
    subst hm
    cases eng <;> exact ⟨rfl, rfl⟩

/-- Witness for C7 (amended) at a concrete disaggregated vLLM config. -/
theorem c7_disaggregation_flags_witness :
    validatedB disaggCfg = true ∧ disaggCfg.mode = Mode.disaggregated ∧
      List.lookup "is-prefill-worker" (generateDisaggregatedWorkerSpec disaggCfg .prefill).2
        = some (JsVal.bool true) ∧
      List.lookup "is-prefill-worker" (generateDisaggregatedWorkerSpec disaggCfg .decode).2
        = none :=
  ⟨by decide, rfl,
    ((c7_disaggregation_flags disaggCfg (by decide) rfl).1 rfl).1,
    ((c7_disaggregation_flags disaggCfg (by decide) rfl).1 rfl).2
      (by intro args h; simp [disaggCfg, baseCfg] at h)⟩

/-! ## C1: `engineArgs` entries win over structured fields -/

/-- Validation guarantees that `engineArgs` keys are pairwise distinct
(JS object keys are unique). -/
theorem validated_engineArgs_nodup (c : DynamoDeploymentConfig)
    (hv : validatedB c = true) (args : List (String × JsVal))
    (hE : c.engineArgs = some args) : (args.map Prod.fst).Nodup := by
  unfold validatedB at hv
  rw [hE] at hv
  simp only [Bool.and_eq_true, decide_eq_true_eq] at hv
  exact hv.2

/-- The aggregated worker spec body is `awMerged` whatever the engine. -/
theorem generateWorkerSpec_snd (c : DynamoDeploymentConfig) :
    (generateWorkerSpec c).2 = awMerged c := by
  unfold generateWorkerSpec
  cases c.engine <;> rfl

/-- Every `engineArgs` entry is readable from the merged disaggregated
worker spec body (before the disaggregation-flag switch). -/
theorem lookup_dwMerged_mem (c : DynamoDeploymentConfig) (role : Role)
    (args : List (String × JsVal)) (k : String) (v : JsVal)
    (hE : c.engineArgs = some args) (hnd : (args.map Prod.fst).Nodup)
    (hm : (k, v) ∈ args) :
    List.lookup k (dwMerged c role) = some v := by
  unfold dwMerged
  exact lookup_withEngineArgs_mem c _ args k v hE hnd hm

/-- The engine-specific disaggregation-flag keys written *after* the
`engineArgs` merge by `generateDisaggregatedWorkerSpec` (lines 232–256). -/
def dwFlagKeys (e : Engine) (role : Role) : List String :=
  match e with
  | .vllm | .llamacpp => if role = .prefill then ["is-prefill-worker"] else []
  | .sglang | .trtllm => ["disaggregation-mode"]

/-- Disaggregated vLLM config whose `engineArgs` tries to force
`is-prefill-worker` off. -/
def c1Cex : DynamoDeploymentConfig :=
  { disaggCfg with engineArgs := some [("is-prefill-worker", JsVal.bool false)] }

/-- C1 counterexample: in disaggregated mode the engine-specific
disaggregation flags are assigned after the `engineArgs` merge, so the
`engineArgs` value for `is-prefill-worker` does *not* win: the prefill
worker spec ends with `is-prefill-worker: true`. -/
theorem c1_engineArgs_last_counterexample :
    validatedB c1Cex = true ∧
      c1Cex.engineArgs = some [("is-prefill-worker", JsVal.bool false)] ∧
      List.lookup "is-prefill-worker" (generateDisaggregatedWorkerSpec c1Cex .prefill).2
        = some (JsVal.bool true) ∧
      JsVal.bool true ≠ JsVal.bool false :=
  ⟨by decide, rfl, rfl, by simp⟩

/-- C1 (amended): every `engineArgs` entry is the final value of its key in
the generated worker specs, *except* for the engine-specific
disaggregation-flag keys in disaggregated mode (`is-prefill-worker` on
vLLM-family prefill workers, `disaggregation-mode` on sglang/trtllm
workers), which are assigned after the `engineArgs` merge and win.  In
aggregated mode the `engineArgs` value always wins. -/
theorem c1_engineArgs_merged_last (c : DynamoDeploymentConfig)
    (hv : validatedB c = true) (args : List (String × JsVal))
    (hE : c.engineArgs = some args) (k : String) (v : JsVal)
    (hm : (k, v) ∈ args) :
    (List.lookup k (generateWorkerSpec c).2 = some v) ∧
    (∀ role : Role, k ∉ dwFlagKeys c.engine role →
      List.lookup k (generateDisaggregatedWorkerSpec c role).2 = some v) := by
  have hnd := validated_engineArgs_nodup c hv args hE
  constructor
  · rw [generateWorkerSpec_snd]
    unfold awMerged
    exact lookup_withEngineArgs_mem c _ args k v hE hnd hm
  · intro role hk
    cases heng : c.engine with
    | vllm =>
      cases role with
      | prefill =>
        have hk2 : k ≠ "is-prefill-worker" := by simpa [dwFlagKeys, heng] using hk
        simp only [dwSpec_vllm_prefill c heng]
        rw [JsVal.lookup_objSet_ne _ _ _ _ hk2]
        exact lookup_dwMerged_mem c .prefill args k v hE hnd hm
      | decode =>
        simp only [dwSpec_vllm_decode c heng]
        exact lookup_dwMerged_mem c .decode args k v hE hnd hm
    | sglang =>
      have hk2 : k ≠ "disaggregation-mode" := by simpa [dwFlagKeys, heng] using hk
      cases role with
      | prefill =>
        simp only [dwSpec_sglang_prefill c heng]
        rw [JsVal.lookup_objSet_ne _ _ _ _ hk2]
        exact lookup_dwMerged_mem c .prefill args k v hE hnd hm
      | decode =>
        simp only [dwSpec_sglang_decode c heng]
        rw [JsVal.lookup_objSet_ne _ _ _ _ hk2]
        exact lookup_dwMerged_mem c .decode args k v hE hnd hm
    | trtllm =>
      have hk2 : k ≠ "disaggregation-mode" := by simpa [dwFlagKeys, heng] using hk
      cases role with
      | prefill =>
        simp only [dwSpec_trtllm_prefill c heng]
        rw [JsVal.lookup_objSet_ne _ _ _ _ hk2]
        exact lookup_dwMerged_mem c .prefill args k v hE hnd hm
      | decode =>
        simp only [dwSpec_trtllm_decode c heng]
        rw [JsVal.lookup_objSet_ne _ _ _ _ hk2]
        exact lookup_dwMerged_mem c .decode args k v hE hnd hm
    | llamacpp =>
      cases role with
      | prefill =>
        have hk2 : k ≠ "is-prefill-worker" := by simpa [dwFlagKeys, heng] using hk
        simp only [dwSpec_llamacpp_prefill c heng]
        rw [JsVal.lookup_objSet_ne _ _ _ _ hk2]
        exact lookup_dwMerged_mem c .prefill args k v hE hnd hm
      | decode =>
        simp only [dwSpec_llamacpp_decode c heng]
        exact lookup_dwMerged_mem c .decode args k v hE hnd hm

/-- Aggregated config whose `engineArgs` overrides the structured
`replicas` and `enforce-eager` fields. -/
def c1Wit : DynamoDeploymentConfig :=
  { baseCfg with engineArgs := some [("replicas", JsVal.num 9), ("gpu-memory-utilization", JsVal.str "0.9")] }

/-- Witness for C1 (amended): the override is observable on a concrete
aggregated config. -/
theorem c1_engineArgs_merged_last_witness :
    validatedB c1Wit = true ∧
      c1Wit.engineArgs = some [("replicas", JsVal.num 9), ("gpu-memory-utilization", JsVal.str "0.9")] ∧
      ("replicas", JsVal.num 9) ∈ [("replicas", JsVal.num 9), ("gpu-memory-utilization", JsVal.str "0.9")] ∧
      List.lookup "replicas" (generateWorkerSpec c1Wit).2 = some (JsVal.num 9) :=
  ⟨by decide, rfl, by simp,
    (c1_engineArgs_merged_last c1Wit (by decide) _ rfl "replicas" (JsVal.num 9)
      (by simp)).1⟩

/-! ## C9: disaggregated desired-replica totals -/

/-- Reading `replicas` from the initial disaggregated object literal. -/
theorem lookup_dwBaseSpec_replicas (c : DynamoDeploymentConfig) (role : Role) :
    List.lookup "replicas" (dwBaseSpec c role)
      = some (.num (jsOrInt
          (if role = Role.prefill then c.prefillReplicas else c.decodeReplicas) 1)) := rfl

/-- Reading `resources` from the initial disaggregated object literal. -/
theorem lookup_dwBaseSpec_resources (c : DynamoDeploymentConfig) (role : Role) :
    List.lookup "resources" (dwBaseSpec c role)
      = some (.obj [("limits", .obj (("nvidia.com/gpu",
          .num (jsOrInt (if role = Role.prefill then c.prefillGpus else c.decodeGpus) 1)) ::
          memoryField (match c.resources with | some r => r.memory | none => none)))]) := rfl

/-- Evaluation of `parseStatus` on a vLLM-shaped disaggregated manifest
(symbolic metadata, frontend and worker bodies). -/
theorem parseStatus_shape_vllm (now : String) (av kv mdv F : JsVal)
    (pB dB : List (String × JsVal)) :
    (parseStatus now (.obj [("apiVersion", av), ("kind", kv), ("metadata", mdv),
        ("spec", .obj [("Frontend", F), ("VllmPrefillWorker", .obj pB),
          ("VllmDecodeWorker", .obj dB)])])).map
        (fun r => (r.replicas.desired, r.prefillReplicas.map (fun x => x.desired),
          r.decodeReplicas.map (fun x => x.desired)))
      = .ok (jsAdd (jsOr (lookupD pB "replicas") (.num 0)) (jsOr (lookupD dB "replicas") (.num 0)),
             some (jsOr (lookupD pB "replicas") (.num 0)),
             some (jsOr (lookupD dB "replicas") (.num 0))) := rfl

/-- Evaluation of `parseStatus` on an SGLang-shaped disaggregated manifest. -/
theorem parseStatus_shape_sglang (now : String) (av kv mdv F : JsVal)
    (pB dB : List (String × JsVal)) :
    (parseStatus now (.obj [("apiVersion", av), ("kind", kv), ("metadata", mdv),
        ("spec", .obj [("Frontend", F), ("SglangPrefillWorker", .obj pB),
          ("SglangDecodeWorker", .obj dB)])])).map
        (fun r => (r.replicas.desired, r.prefillReplicas.map (fun x => x.desired),
          r.decodeReplicas.map (fun x => x.desired)))
      = .ok (jsAdd (jsOr (lookupD pB "replicas") (.num 0)) (jsOr (lookupD dB "replicas") (.num 0)),
             some (jsOr (lookupD pB "replicas") (.num 0)),
             some (jsOr (lookupD dB "replicas") (.num 0))) := rfl

/-- Evaluation of `parseStatus` on a TRT-LLM-shaped disaggregated manifest. -/
theorem parseStatus_shape_trtllm (now : String) (av kv mdv F : JsVal)
    (pB dB : List (String × JsVal)) :
    (parseStatus now (.obj [("apiVersion", av), ("kind", kv), ("metadata", mdv),
        ("spec", .obj [("Frontend", F), ("TrtllmPrefillWorker", .obj pB),
          ("TrtllmDecodeWorker", .obj dB)])])).map
        (fun r => (r.replicas.desired, r.prefillReplicas.map (fun x => x.desired),
          r.decodeReplicas.map (fun x => x.desired)))
      = .ok (jsAdd (jsOr (lookupD pB "replicas") (.num 0)) (jsOr (lookupD dB "replicas") (.num 0)),
             some (jsOr (lookupD pB "replicas") (.num 0)),
             some (jsOr (lookupD dB "replicas") (.num 0))) := rfl

/-- The disaggregated shape of `generateManifest` (lines 70–93). -/
theorem generateManifest_disagg (c : DynamoDeploymentConfig)
    (hm : c.mode = Mode.disaggregated) :
    generateManifest c
      = .obj [ ("apiVersion", .str "dynamo.nvidia.com/v1alpha1"),
               ("kind", .str "DynamoGraphDeployment"),
               ("metadata", manifestMetadata c),
               ("spec", .obj (objSet (objSet [("Frontend", .obj (generateFrontendSpec c))]
                 (generateDisaggregatedWorkerSpec c .prefill).1
                 (.obj (generateDisaggregatedWorkerSpec c .prefill).2))
                 (generateDisaggregatedWorkerSpec c .decode).1
                 (.obj (generateDisaggregatedWorkerSpec c .decode).2))) ] := by
  unfold generateManifest
  rw [hm]
  rfl

/-- Disaggregated config whose `engineArgs` overrides `replicas`. -/
def c9Cex : DynamoDeploymentConfig :=
  { disaggCfg with engineArgs := some [("replicas", JsVal.num 7)] }

/-- C9 counterexample: with `prefillReplicas = 2`, `decodeReplicas = 3` and
`engineArgs = {replicas: 7}` (a validated config: `engineArgs` is an open
verbatim mapping), both generated worker specs end with `replicas = 7`,
so `parseStatus` reports `desired = 14 ≠ 2 + 3`. -/
theorem c9_desired_total_counterexample :
    validatedB c9Cex = true ∧ c9Cex.prefillReplicas = some 2 ∧
      c9Cex.decodeReplicas = some 3 ∧
      (parseStatus "T" (generateManifest c9Cex)).map (fun r => r.replicas.desired)
        = Except.ok (JsVal.num 14) ∧
      (14 : Int) ≠ 2 + 3 :=
  ⟨by decide, rfl, rfl, rfl, by decide⟩

/-- C9 (amended): for every validated disaggregated config with
`prefillReplicas = p > 0` and `decodeReplicas = d > 0` *whose
`engineArgs` does not set a `replicas` key*, parsing the generated
manifest (absent `status`) reports `replicas.desired = p + d`,
`prefillReplicas.desired = p` and `decodeReplicas.desired = d`. -/
theorem c9_desired_total (now : String) (c : DynamoDeploymentConfig)
    (hv : validatedB c = true) (hm : c.mode = Mode.disaggregated)
    (p d : Int) (hp : c.prefillReplicas = some p) (hd : c.decodeReplicas = some d)
    (hp0 : 0 < p) (hd0 : 0 < d)
    (hargs : ∀ args, c.engineArgs = some args → "replicas" ∉ args.map Prod.fst) :
    (parseStatus now (generateManifest c)).map
        (fun r => (r.replicas.desired, r.prefillReplicas.map (fun x => x.desired),
          r.decodeReplicas.map (fun x => x.desired)))
      = Except.ok (JsVal.num (p + d), some (JsVal.num p), some (JsVal.num d)) := by
  have hpB : List.lookup "replicas" (dwMerged c .prefill) = some (JsVal.num p) := by
    rw [lookup_dwMerged_eq_base c .prefill "replicas"
      (by decide) (by decide) (by decide) (by decide) hargs]
    rw [lookup_dwBaseSpec_replicas]
    simp [hp, jsOrInt, hp0.ne']
  have hdB : List.lookup "replicas" (dwMerged c .decode) = some (JsVal.num d) := by
    rw [lookup_dwMerged_eq_base c .decode "replicas"
      (by decide) (by decide) (by decide) (by decide) hargs]
    rw [lookup_dwBaseSpec_replicas]
    simp [hd, jsOrInt, hd0.ne']
  have hptr : truthy (JsVal.num p) = true := by simp [truthy, hp0.ne']
  have hdtr : truthy (JsVal.num d) = true := by simp [truthy, hd0.ne']
  rw [generateManifest_disagg c hm]
  cases heng : c.engine with
  | vllm =>
    rw [dwSpec_vllm_prefill c heng, dwSpec_vllm_decode c heng]
    refine Eq.trans (parseStatus_shape_vllm now _ _ _ _ _ _) ?_
    have hpB2 : List.lookup "replicas"
        (objSet (dwMerged c .prefill) "is-prefill-worker" (JsVal.bool true))
          = some (JsVal.num p) := by
      rw [JsVal.lookup_objSet_ne _ _ _ _ (by decide)]
      exact hpB
    simp [lookupD, hpB2, hdB, jsOr, hptr, hdtr, jsAdd, JsVal.toNum?]
  | sglang =>
    rw [dwSpec_sglang_prefill c heng, dwSpec_sglang_decode c heng]
    refine Eq.trans (parseStatus_shape_sglang now _ _ _ _ _ _) ?_
    have hpB2 : List.lookup "replicas"
        (objSet (dwMerged c .prefill) "disaggregation-mode" (JsVal.str "prefill"))
          = some (JsVal.num p) := by
      rw [JsVal.lookup_objSet_ne _ _ _ _ (by decide)]
      exact hpB
    have hdB2 : List.lookup "replicas"
        (objSet (dwMerged c .decode) "disaggregation-mode" (JsVal.str "decode"))
          = some (JsVal.num d) := by
      rw [JsVal.lookup_objSet_ne _ _ _ _ (by decide)]
      exact hdB
    simp [lookupD, hpB2, hdB2, jsOr, hptr, hdtr, jsAdd, JsVal.toNum?]
  | trtllm =>
    rw [dwSpec_trtllm_prefill c heng, dwSpec_trtllm_decode c heng]
    refine Eq.trans (parseStatus_shape_trtllm now _ _ _ _ _ _) ?_
    have hpB2 : List.lookup "replicas"
        (objSet (dwMerged c .prefill) "disaggregation-mode" (JsVal.str "prefill"))
          = some (JsVal.num p) := by
      rw [JsVal.lookup_objSet_ne _ _ _ _ (by decide)]
      exact hpB
    have hdB2 : List.lookup "replicas"
        (objSet (dwMerged c .decode) "disaggregation-mode" (JsVal.str "decode"))
          = some (JsVal.num d) := by
      rw [JsVal.lookup_objSet_ne _ _ _ _ (by decide)]
      exact hdB
    simp [lookupD, hpB2, hdB2, jsOr, hptr, hdtr, jsAdd, JsVal.toNum?]
  | llamacpp =>
    rw [dwSpec_llamacpp_prefill c heng, dwSpec_llamacpp_decode c heng]
    refine Eq.trans (parseStatus_shape_vllm now _ _ _ _ _ _) ?_
    have hpB2 : List.lookup "replicas"
        (objSet (dwMerged c .prefill) "is-prefill-worker" (JsVal.bool true))
          = some (JsVal.num p) := by
      rw [JsVal.lookup_objSet_ne _ _ _ _ (by decide)]
      exact hpB
    simp [lookupD, hpB2, hdB, jsOr, hptr, hdtr, jsAdd, JsVal.toNum?]

/-- Witness for C9 (amended) at the concrete disaggregated config. -/
theorem c9_desired_total_witness :
    validatedB disaggCfg = true ∧ disaggCfg.mode = Mode.disaggregated ∧
      disaggCfg.prefillReplicas = some 2 ∧ disaggCfg.decodeReplicas = some 3 ∧
      (parseStatus "T" (generateManifest disaggCfg)).map
          (fun r => (r.replicas.desired, r.prefillReplicas.map (fun x => x.desired),
            r.decodeReplicas.map (fun x => x.desired)))
        = Except.ok (JsVal.num 5, some (JsVal.num 2), some (JsVal.num 3)) :=
  ⟨by decide, rfl, rfl, rfl, by
    have h := c9_desired_total "T" disaggCfg (by decide) rfl 2 3 rfl rfl
      (by decide) (by decide) (by intro args h; simp [disaggCfg, baseCfg] at h)
    simpa using h⟩

/-! ## C10: `|| 1` defaults for missing/zero disaggregated sizing -/

/-- Keys other than the engine's disaggregation flags read through the
flag switch of `generateDisaggregatedWorkerSpec` to the merged body. -/
theorem lookup_dwSpec_nonflag (c : DynamoDeploymentConfig) (role : Role) (k : String)
    (h1 : k ≠ "is-prefill-worker") (h2 : k ≠ "disaggregation-mode") :
    List.lookup k (generateDisaggregatedWorkerSpec c role).2
      = List.lookup k (dwMerged c role) := by
  cases heng : c.engine with
  | vllm =>
    cases role with
    | prefill =>
      rw [dwSpec_vllm_prefill c heng]
      exact JsVal.lookup_objSet_ne _ _ _ _ h1
    | decode => rw [dwSpec_vllm_decode c heng]
  | sglang =>
    cases role with
    | prefill =>
      rw [dwSpec_sglang_prefill c heng]
      exact JsVal.lookup_objSet_ne _ _ _ _ h2
    | decode =>
      rw [dwSpec_sglang_decode c heng]
      exact JsVal.lookup_objSet_ne _ _ _ _ h2
  | trtllm =>
    cases role with
    | prefill =>
      rw [dwSpec_trtllm_prefill c heng]
      exact JsVal.lookup_objSet_ne _ _ _ _ h2
    | decode =>
      rw [dwSpec_trtllm_decode c heng]
      exact JsVal.lookup_objSet_ne _ _ _ _ h2
  | llamacpp =>
    cases role with
    | prefill =>
      rw [dwSpec_llamacpp_prefill c heng]
      exact JsVal.lookup_objSet_ne _ _ _ _ h1
    | decode => rw [dwSpec_llamacpp_decode c heng]

/-- Disaggregated config with absent `prefillReplicas` and an
`engineArgs` override of `replicas`. -/
def c10Cex : DynamoDeploymentConfig :=
  { disaggCfg with prefillReplicas := none, engineArgs := some [("replicas", JsVal.num 9)] }

/-- C10 counterexample: with `prefillReplicas` absent the claim expects the
prefill worker spec to carry `replicas = 1`, but an `engineArgs` entry
`{replicas: 9}` overwrites the defaulted value (merged after the
structured fields, source lines 226–230). -/
theorem c10_sizing_defaults_counterexample :
    c10Cex.mode = Mode.disaggregated ∧ c10Cex.prefillReplicas = none ∧
      List.lookup "replicas" (generateDisaggregatedWorkerSpec c10Cex .prefill).2
        = some (JsVal.num 9) ∧
      some (JsVal.num 9) ≠ some (JsVal.num 1) :=
  ⟨rfl, rfl, rfl, by simp⟩

/-- C10 (amended): for every disaggregated config and role, if the role's
replica count is absent or zero then the emitted worker spec carries
`replicas = 1`, and if the role's GPU count is absent or zero then its
resource limits carry `nvidia.com/gpu = 1` — *provided `engineArgs` does
not itself set the `replicas` (resp. `resources`) key*.  Generation is a
total function (it cannot fail); the final conjunct places the emitted
worker spec in the manifest. -/
theorem c10_sizing_defaults (c : DynamoDeploymentConfig) (role : Role)
    (hm : c.mode = Mode.disaggregated) :
    (((if role = Role.prefill then c.prefillReplicas else c.decodeReplicas) = none ∨
        (if role = Role.prefill then c.prefillReplicas else c.decodeReplicas) = some 0) →
      (∀ args, c.engineArgs = some args → "replicas" ∉ args.map Prod.fst) →
      List.lookup "replicas" (generateDisaggregatedWorkerSpec c role).2
        = some (JsVal.num 1)) ∧
    (((if role = Role.prefill then c.prefillGpus else c.decodeGpus) = none ∨
        (if role = Role.prefill then c.prefillGpus else c.decodeGpus) = some 0) →
      (∀ args, c.engineArgs = some args → "resources" ∉ args.map Prod.fst) →
      ((lookupD (generateDisaggregatedWorkerSpec c role).2 "resources").optField
          "limits").optField "nvidia.com/gpu" = JsVal.num 1) ∧
    ((generateManifest c).optField "spec").optField
        (generateDisaggregatedWorkerSpec c role).1
      = JsVal.obj (generateDisaggregatedWorkerSpec c role).2 := by
  refine ⟨fun hrep hargs => ?_, fun hgpu hargs => ?_, ?_⟩
  · rw [lookup_dwSpec_nonflag c role "replicas" (by decide) (by decide)]
    rw [lookup_dwMerged_eq_base c role "replicas"
      (by decide) (by decide) (by decide) (by decide) hargs]
    rw [lookup_dwBaseSpec_replicas]
    rcases hrep with h | h <;> rw [h] <;> rfl
  · have hres : List.lookup "resources" (generateDisaggregatedWorkerSpec c role).2
        = List.lookup "resources" (dwBaseSpec c role) := by
      rw [lookup_dwSpec_nonflag c role "resources" (by decide) (by decide)]
      exact lookup_dwMerged_eq_base c role "resources"
        (by decide) (by decide) (by decide) (by decide) hargs
    rw [lookup_dwBaseSpec_resources] at hres
    simp only [lookupD, hres, Option.getD, optField, List.lookup_cons_self]
    rcases hgpu with h | h <;> rw [h] <;> rfl
  · obtain ⟨nm, ns, mid, smn, eng, mode, rm, rep, pr, dr, pg, dg, res, hf, ee, epc, trc, cl, ea⟩ := c
    simp only at hm
    subst hm
    cases eng <;> cases role <;> rfl

/-- Disaggregated config with absent `prefillReplicas` and zero
`prefillGpus`. -/
def c10Wit : DynamoDeploymentConfig :=
  { disaggCfg with prefillReplicas := none, prefillGpus := some 0 }

/-- Witness for C10 (amended) at a concrete config. -/
theorem c10_sizing_defaults_witness :
    c10Wit.mode = Mode.disaggregated ∧ c10Wit.prefillReplicas = none ∧
      c10Wit.prefillGpus = some 0 ∧
      List.lookup "replicas" (generateDisaggregatedWorkerSpec c10Wit .prefill).2
        = some (JsVal.num 1) ∧
      ((lookupD (generateDisaggregatedWorkerSpec c10Wit .prefill).2 "resources").optField
          "limits").optField "nvidia.com/gpu" = JsVal.num 1 :=
  ⟨rfl, rfl, rfl,
    (c10_sizing_defaults c10Wit .prefill rfl).1 (Or.inl rfl)
      (by intro args h; simp [c10Wit, disaggCfg, baseCfg] at h),
    (c10_sizing_defaults c10Wit .prefill rfl).2.1 (Or.inr rfl)
      (by intro args h; simp [c10Wit, disaggCfg, baseCfg] at h)⟩

/-! ## C8: totality and defaults of `parseStatus` -/

/-- The value the conditions `.map` runs over: `status.conditions || []`
with `status = raw.status || {}` (reads via `optField`, which agrees with
plain access on every non-nullish receiver). -/
def condsValueOf (raw : JsVal) : JsVal :=
  jsOr ((jsOr (raw.optField "status") (.obj [])).optField "conditions") (.arr [])

/-- The conditions `.map` callback does not throw: its receiver is an
array and every element is non-nullish (plain accesses `c.type`, … throw
on `null`/`undefined` elements). -/
def safeConds : JsVal → Bool
  | .arr xs => xs.all (fun x => match x with | .null => false | .undef => false | _ => true)
  | _ => false

/-- A non-nullish condition element parses without throwing. -/
theorem parseCondition_ok (x : JsVal) (hn : x ≠ JsVal.null) (hu : x ≠ JsVal.undef) :
    ∃ pc, parseCondition x = Except.ok pc := by
  cases x with
  | null => exact absurd rfl hn
  | undef => exact absurd rfl hu
  | nan => exact ⟨_, rfl⟩
  | bool b => exact ⟨_, rfl⟩
  | num n => exact ⟨_, rfl⟩
  | str s => exact ⟨_, rfl⟩
  | arr xs => exact ⟨_, rfl⟩
  | obj fs => exact ⟨_, rfl⟩

/-- A safe conditions value maps without throwing. -/
theorem parseConditions_ok (v : JsVal) (h : safeConds v = true) :
    ∃ l, parseConditions v = Except.ok l := by
  cases v with
  | arr xs =>
    simp only [safeConds, List.all_eq_true] at h
    induction xs with
    | nil => exact ⟨[], rfl⟩
    | cons x xs ih =>
      have hx := h x (by simp)
      have hxn : x ≠ JsVal.null := by
        intro he; subst he; simp at hx
      have hxu : x ≠ JsVal.undef := by
        intro he; subst he; simp at hx
      obtain ⟨pc, hpc⟩ := parseCondition_ok x hxn hxu
      obtain ⟨l, hl⟩ := ih (fun y hy => h y (by simp [hy]))
      refine ⟨pc :: l, ?_⟩
      simp only [parseConditions] at hl ⊢
      rw [List.mapM_cons, hpc, hl]
      rfl
  | null => simp [safeConds] at h
  | undef => simp [safeConds] at h
  | nan => simp [safeConds] at h
  | bool b => simp [safeConds] at h
  | num n => simp [safeConds] at h
  | str s => simp [safeConds] at h
  | obj fs => simp [safeConds] at h

/-- C8 counterexample: `parseStatus` is not total over arbitrary raw
input: at `null` the very first plain property access (`obj.metadata`)
throws a `TypeError`. -/
theorem c8_parseStatus_total_counterexample :
    parseStatus "T" JsVal.null = Except.error () := rfl

/-- C8 (amended): `parseStatus` never throws on any object input whose
(defaulted) `status.conditions` value, when the `||`-default does not
replace it, is an array of non-nullish elements — in particular it is
tolerant of missing fields at every level; on the input with `metadata`,
`spec` and `status` all absent it returns engine `vllm`, mode
`aggregated`, `replicas = {desired: 1, ready: 0, available: 0}`, phase
`"Pending"` and an empty conditions list.  (It throws on `null` /
`undefined` input and on nullish conditions elements.) -/
theorem c8_parseStatus_total_and_defaults :
    (∀ (now : String) (fs : List (String × JsVal)),
      safeConds (condsValueOf (JsVal.obj fs)) = true →
      ∃ r, parseStatus now (JsVal.obj fs) = Except.ok r) ∧
    (parseStatus "T" (JsVal.obj [])).map
        (fun r => (r.engine, r.mode, r.replicas.desired, r.replicas.ready,
          r.replicas.available, r.phase, r.conditions))
      = Except.ok (Engine.vllm, Mode.aggregated, JsVal.num 1, JsVal.num 0,
          JsVal.num 0, JsVal.str "Pending", ([] : List ParsedCondition)) := by
  constructor
  · intro now fs hsafe
    obtain ⟨l, hl⟩ := parseConditions_ok _ hsafe
    refine ⟨parseStatusCore now (lookupD fs "metadata") (jsOr (lookupD fs "spec") (.obj []))
      (jsOr (lookupD fs "status") (.obj [])) l, ?_⟩
    have h : parseStatus now (JsVal.obj fs)
        = (parseConditions (condsValueOf (JsVal.obj fs))).bind
            (fun conditions => Except.ok (parseStatusCore now (lookupD fs "metadata")
              (jsOr (lookupD fs "spec") (.obj []))
              (jsOr (lookupD fs "status") (.obj [])) conditions)) := rfl
    rw [h, hl]
    rfl
  · rfl

/-- Witness for C8 (amended): the totality conjunct applied at a raw
resource with a populated status (two well-formed conditions). -/
theorem c8_parseStatus_total_and_defaults_witness :
    safeConds (condsValueOf (JsVal.obj [("status", JsVal.obj [("conditions",
        JsVal.arr [JsVal.obj [("type", JsVal.str "Ready")], JsVal.obj []])])])) = true ∧
    ∃ r, parseStatus "T" (JsVal.obj [("status", JsVal.obj [("conditions",
        JsVal.arr [JsVal.obj [("type", JsVal.str "Ready")], JsVal.obj []])])])
      = Except.ok r :=
  ⟨by decide,
    c8_parseStatus_total_and_defaults.1 "T" _ (by decide)⟩

/-! ## C4: the `frontendService` naming convention -/

/-- The raw resource's `metadata?.name` value. -/
def rawMetaName (raw : JsVal) : JsVal :=
  (raw.optField "metadata").optField "name"

/-- `name` and `frontendService` of the constructed status: `name` takes
the `|| 'unknown'` default, `frontendService` interpolates the *raw*
`metadata?.name` (so an absent name prints as `"undefined"`). -/
theorem parseStatusCore_name_frontendService (now : String) (md spec status : JsVal)
    (conds : List ParsedCondition) :
    (parseStatusCore now md spec status conds).frontendService
        = jsToString (md.optField "name") ++ "-frontend" ∧
      (parseStatusCore now md spec status conds).name
        = jsOr (md.optField "name") (.str "unknown") := by
  constructor <;> (simp only [parseStatusCore]; split <;> rfl)

/-- Every successful `parseStatus` result is a `parseStatusCore` value on
the defaulted top-level reads. -/
theorem parseStatus_ok_inv (now : String) (raw : JsVal) (r : DeploymentStatus)
    (hok : parseStatus now raw = Except.ok r) :
    ∃ l, r = parseStatusCore now (raw.optField "metadata")
      (jsOr (raw.optField "spec") (.obj [])) (jsOr (raw.optField "status") (.obj [])) l := by
  cases raw with
  | null =>
    have h2 : (Except.error () : Except Unit DeploymentStatus) = Except.ok r := hok
    exact Except.noConfusion h2
  | undef =>
    have h2 : (Except.error () : Except Unit DeploymentStatus) = Except.ok r := hok
    exact Except.noConfusion h2
  | obj fs =>
    have h : (parseConditions (condsValueOf (JsVal.obj fs))).bind
        (fun conditions => Except.ok (parseStatusCore now (lookupD fs "metadata")
          (jsOr (lookupD fs "spec") (.obj []))
          (jsOr (lookupD fs "status") (.obj [])) conditions)) = Except.ok r := hok
    cases hC : parseConditions (condsValueOf (JsVal.obj fs)) with
    | error e =>
      rw [hC] at h
      exact Except.noConfusion (show (Except.error e : Except Unit DeploymentStatus)
        = Except.ok r from h)
    | ok l =>
      rw [hC] at h
      have h2 : Except.ok (parseStatusCore now (lookupD fs "metadata")
          (jsOr (lookupD fs "spec") (.obj []))
          (jsOr (lookupD fs "status") (.obj [])) l) = Except.ok r := h
      injection h2 with h3
      exact ⟨l, h3.symm⟩
  | nan =>
    have h2 : Except.ok (parseStatusCore now JsVal.undef (JsVal.obj []) (JsVal.obj []) [])
        = Except.ok r := hok
    injection h2 with h3
    exact ⟨[], h3.symm⟩
  | bool b =>
    have h2 : Except.ok (parseStatusCore now JsVal.undef (JsVal.obj []) (JsVal.obj []) [])
        = Except.ok r := hok
    injection h2 with h3
    exact ⟨[], h3.symm⟩
  | num n =>
    have h2 : Except.ok (parseStatusCore now JsVal.undef (JsVal.obj []) (JsVal.obj []) [])
        = Except.ok r := hok
    injection h2 with h3
    exact ⟨[], h3.symm⟩
  | str s =>
    have h2 : Except.ok (parseStatusCore now JsVal.undef (JsVal.obj []) (JsVal.obj []) [])
        = Except.ok r := hok
    injection h2 with h3
    exact ⟨[], h3.symm⟩
  | arr xs =>
    have h2 : Except.ok (parseStatusCore now JsVal.undef (JsVal.obj []) (JsVal.obj []) [])
        = Except.ok r := hok
    injection h2 with h3
    exact ⟨[], h3.symm⟩

/-- C4 counterexample: on a raw resource without `metadata.name` the
returned `name` is `"unknown"` but `frontendService` is
`"undefined-frontend"` (the template literal interpolates `undefined`),
so `frontendService ≠ name + "-frontend"`. -/
theorem c4_frontendService_counterexample :
    (parseStatus "T" (JsVal.obj [])).map (fun r => (r.name, r.frontendService))
        = Except.ok (JsVal.str "unknown", "undefined-frontend") ∧
      "undefined-frontend" ≠ "unknown" ++ "-frontend" := by
  constructor
  · have h1 : (parseStatus "T" (JsVal.obj [])).map (fun r => (r.name, r.frontendService))
        = Except.ok (JsVal.str "unknown", jsToString JsVal.undef ++ "-frontend") := rfl
    rw [h1]
    rfl
  · decide

/-- C4 (amended): `frontendService` is the string interpolation of the raw
`metadata?.name` followed by `"-frontend"` (hence `"undefined-frontend"`
when the name is absent); it equals `name + "-frontend"` exactly when
`metadata.name` is present as a non-empty string. -/
theorem c4_frontendService_naming (now : String) (raw : JsVal) (r : DeploymentStatus)
    (hok : parseStatus now raw = Except.ok r) :
    r.frontendService = jsToString (rawMetaName raw) ++ "-frontend" ∧
      (∀ s : String, rawMetaName raw = JsVal.str s → s ≠ "" →
        r.name = JsVal.str s ∧ r.frontendService = s ++ "-frontend") := by
  obtain ⟨l, hr⟩ := parseStatus_ok_inv now raw r hok
  subst hr
  obtain ⟨hf, hn⟩ := parseStatusCore_name_frontendService now (raw.optField "metadata")
    (jsOr (raw.optField "spec") (.obj [])) (jsOr (raw.optField "status") (.obj [])) l
  refine ⟨hf, fun s hs hne => ?_⟩
  have hmn : (raw.optField "metadata").optField "name" = JsVal.str s := hs
  constructor
  · rw [hn, hmn]
    simp [jsOr, truthy, hne]
  · rw [hf]
    unfold rawMetaName at hs
    rw [hs]
    rfl

/-- Witness for C4 (amended) at a raw resource carrying a name. -/
theorem c4_frontendService_naming_witness :
    parseStatus "T" (JsVal.obj [("metadata", JsVal.obj [("name", JsVal.str "abc")])])
        = Except.ok (parseStatusCore "T" (JsVal.obj [("name", JsVal.str "abc")])
            (JsVal.obj []) (JsVal.obj []) []) ∧
      (parseStatusCore "T" (JsVal.obj [("name", JsVal.str "abc")])
          (JsVal.obj []) (JsVal.obj []) []).frontendService = "abc-frontend" ∧
      (parseStatusCore "T" (JsVal.obj [("name", JsVal.str "abc")])
          (JsVal.obj []) (JsVal.obj []) []).name = JsVal.str "abc" :=
  ⟨rfl,
    ((c4_frontendService_naming "T"
        (JsVal.obj [("metadata", JsVal.obj [("name", JsVal.str "abc")])])
        (parseStatusCore "T" (JsVal.obj [("name", JsVal.str "abc")])
          (JsVal.obj []) (JsVal.obj []) []) rfl).2 "abc" rfl (by decide)).2,
    ((c4_frontendService_naming "T"
        (JsVal.obj [("metadata", JsVal.obj [("name", JsVal.str "abc")])])
        (parseStatusCore "T" (JsVal.obj [("name", JsVal.str "abc")])
          (JsVal.obj []) (JsVal.obj []) []) rfl).2 "abc" rfl (by decide)).1⟩

/-! ## Handler lemmas and concrete fixtures for C2/C5 -/

/-- Membership in the handler's flatten fold. -/
theorem mem_foldl_append (d : DeploymentStatus) :
    ∀ (ls : List (List DeploymentStatus)) (acc : List DeploymentStatus),
      d ∈ ls.foldl (fun a r => a ++ r) acc ↔ d ∈ acc ∨ ∃ l ∈ ls, d ∈ l := by
  intro ls
  induction ls with
  | nil => intro acc; simp
  | cons l ls ih =>
    intro acc
    rw [List.foldl_cons, ih]
    simp [List.mem_append, or_assoc]

/-- `Promise.all` rejects when any of its promises rejects. -/
theorem promiseAll_error_of_mem {α : Type} (xs : List (Except Unit α))
    (h : ∃ x ∈ xs, x = Except.error ()) : promiseAll xs = Except.error () := by
  induction xs with
  | nil => simp at h
  | cons y ys ih =>
    rcases h with ⟨x, hx, hxe⟩
    rcases List.mem_cons.mp hx with he | ht
    · subst he
      rw [hxe]
      rfl
    · cases y with
      | error e => rfl
      | ok v =>
        have h2 := ih ⟨x, ht, hxe⟩
        show (do
          let v2 ← Except.ok v
          let rest ← promiseAll ys
          Except.ok (v2 :: rest)) = Except.error ()
        rw [show (Except.ok v : Except Unit α) >>= (fun v2 => do
            let rest ← promiseAll ys
            Except.ok (v2 :: rest)) = (do
            let rest ← promiseAll ys
            Except.ok (v :: rest)) from rfl, h2]
        rfl

/-- A synthetic deployment whose `createdAt` is the integer `i`. -/
def mkD (i : Int) : DeploymentStatus :=
  { name := JsVal.str "d", nspace := JsVal.str "ns", modelId := JsVal.str "m",
    engine := .vllm, mode := .aggregated, phase := JsVal.str "Running",
    replicas := { desired := JsVal.num 1, ready := JsVal.num 0, available := JsVal.num 0 },
    conditions := [], pods := [], createdAt := JsVal.num i,
    frontendService := "d-frontend", prefillReplicas := none, decodeReplicas := none }

/-- A concrete `new Date(x).getTime()` model for numeric timestamps. -/
def numTime : JsVal → Int
  | .num n => n
  | _ => 0

/-! ## C5: sort-then-paginate contract of the listing handler -/

/-- C5: in the no-namespace-filter branch the handler sorts the flattened
aggregate by `createdAt` descending (a stable sort of the merged list)
*before* applying `offset`/`limit`; with 10 deployments of pairwise
distinct timestamps and `{limit: 3, offset: 2}` the page is exactly the
3rd–5th elements of that descending order and `hasMore = true`. -/
theorem c5_sort_then_paginate (getTime : JsVal → Int) (namespaces : List String)
    (fetch : String → Except Unit (List DeploymentStatus))
    (ls : List (List DeploymentStatus)) (ds : List DeploymentStatus)
    (hok : promiseAll ((jsSetDedup namespaces).map fetch) = Except.ok ls)
    (hflat : ls.foldl (fun a r => a ++ r) [] = ds)
    (hlen : ds.length = 10)
    (hdistinct : (ds.map (fun d => getTime d.createdAt)).Nodup) :
    (listDeploymentsHandler getTime namespaces fetch (some 3) (some 2)).deployments
        = ((ds.mergeSort (createdDescLe getTime)).drop 2).take 3 ∧
      (listDeploymentsHandler getTime namespaces fetch (some 3) (some 2)).pagination.hasMore
        = true ∧
      (ds.mergeSort (createdDescLe getTime)).Pairwise
        (fun a b => getTime b.createdAt ≤ getTime a.createdAt) ∧
      (ds.mergeSort (createdDescLe getTime)).Perm ds := by
  have hperm : (ds.mergeSort (createdDescLe getTime)).Perm ds := List.mergeSort_perm ds _
  have hlenS : (ds.mergeSort (createdDescLe getTime)).length = 10 := by
    rw [hperm.length_eq]
    exact hlen
  refine ⟨?_, ?_, ?_, hperm⟩
  · simp only [listDeploymentsHandler, hok, hflat]
    rfl
  · simp only [listDeploymentsHandler, hok, hflat]
    simp [List.length_take, List.length_drop, hlenS]
  · have hs := @List.sorted_mergeSort DeploymentStatus (createdDescLe getTime)
      (fun a b c hab hbc => by
        simp only [createdDescLe, decide_eq_true_eq] at hab hbc ⊢
        exact le_trans hbc hab)
      (fun a b => by
        simp only [createdDescLe]
        rcases le_total (getTime b.createdAt) (getTime a.createdAt) with h | h
        · simp [h]
        · simp [h])
      ds
    exact hs.imp (fun h => by simpa [createdDescLe] using h)

/-- Two fixed fan-out namespaces with five deployments each. -/
def fetchAB : String → Except Unit (List DeploymentStatus) :=
  fun ns =>
    if ns = "a" then .ok [mkD 3, mkD 1, mkD 4, mkD 10, mkD 2]
    else .ok [mkD 9, mkD 5, mkD 8, mkD 7, mkD 6]

/-- The flattened aggregate of `fetchAB` over namespaces `a`, `b`. -/
def dsAB : List DeploymentStatus :=
  [mkD 3, mkD 1, mkD 4, mkD 10, mkD 2, mkD 9, mkD 5, mkD 8, mkD 7, mkD 6]

/-- Witness for C5 at a concrete two-namespace fan-out. -/
theorem c5_sort_then_paginate_witness :
    promiseAll ((jsSetDedup ["a", "b"]).map fetchAB)
        = Except.ok [[mkD 3, mkD 1, mkD 4, mkD 10, mkD 2],
            [mkD 9, mkD 5, mkD 8, mkD 7, mkD 6]] ∧
      dsAB.length = 10 ∧
      (dsAB.map (fun d => numTime d.createdAt)).Nodup ∧
      (listDeploymentsHandler numTime ["a", "b"] fetchAB (some 3) (some 2)).deployments
        = ((dsAB.mergeSort (createdDescLe numTime)).drop 2).take 3 ∧
      (listDeploymentsHandler numTime ["a", "b"] fetchAB (some 3) (some 2)).pagination.hasMore
        = true :=
  ⟨rfl, rfl, by decide,
    (c5_sort_then_paginate numTime ["a", "b"] fetchAB _ dsAB rfl rfl rfl (by decide)).1,
    (c5_sort_then_paginate numTime ["a", "b"] fetchAB _ dsAB rfl rfl rfl (by decide)).2.1⟩

/-! ## C2: per-namespace failure isolation in cross-namespace listing -/

/-- One namespace rejects, the other returns a deployment. -/
def fetchOneFails : String → Except Unit (List DeploymentStatus) :=
  fun ns => if ns = "b" then .ok [mkD 1] else .error ()

/-- C2 counterexample: with namespaces `["a", "b"]` where listing `a`
rejects and listing `b` succeeds with one deployment, `Promise.all`
rejects and the handler's `catch` returns the *empty* response: the
successful namespace's deployment is lost, contradicting the claim that
a single namespace's failure contributes an empty list for that
namespace only. -/
theorem c2_partial_failure_counterexample :
    fetchOneFails "a" = Except.error () ∧ fetchOneFails "b" = Except.ok [mkD 1] ∧
      (listDeploymentsHandler numTime ["a", "b"] fetchOneFails none none)
        = { deployments := [],
            pagination := { total := 0, limit := 0, offset := 0, hasMore := false } } ∧
      mkD 1 ∉ (listDeploymentsHandler numTime ["a", "b"] fetchOneFails none none).deployments := by
  refine ⟨rfl, rfl, rfl, ?_⟩
  rw [show (listDeploymentsHandler numTime ["a", "b"] fetchOneFails none none).deployments
    = [] from rfl]
  simp

/-- C2 (amended): if *any* fan-out namespace's listing rejects, the whole
handler response degrades to the empty response (deployments `[]`,
`total = 0`, `hasMore = false`) — not just that namespace's
contribution; when every namespace succeeds, every deployment of every
namespace appears in the unpaginated aggregate. -/
theorem c2_partial_failure_behaviour (getTime : JsVal → Int) (namespaces : List String)
    (fetch : String → Except Unit (List DeploymentStatus)) :
    ((∃ ns ∈ jsSetDedup namespaces, fetch ns = Except.error ()) →
      ∀ limit offset,
        listDeploymentsHandler getTime namespaces fetch limit offset
          = { deployments := [],
              pagination := { total := 0, limit := 0, offset := 0, hasMore := false } }) ∧
    (∀ ls, promiseAll ((jsSetDedup namespaces).map fetch) = Except.ok ls →
      ∀ d, (∃ l ∈ ls, d ∈ l) →
        d ∈ (listDeploymentsHandler getTime namespaces fetch none none).deployments) := by
  constructor
  · rintro ⟨ns, hns, herr⟩ limit offset
    have hmem : Except.error () ∈ (jsSetDedup namespaces).map fetch := by
      rw [← herr]
      exact List.mem_map_of_mem fetch hns
    have hall : promiseAll ((jsSetDedup namespaces).map fetch) = Except.error () :=
      promiseAll_error_of_mem _ ⟨_, hmem, rfl⟩
    simp only [listDeploymentsHandler, hall]
  · intro ls hok d hd
    simp only [listDeploymentsHandler, hok]
    simp only [Option.isSome_none, Bool.or_self, Bool.false_eq_true, if_false,
      List.mem_mergeSort]
    rw [mem_foldl_append]
    exact Or.inr hd

/-- Witness for C2 (amended): both conjuncts applied at concrete inputs. -/
theorem c2_partial_failure_behaviour_witness :
    (∃ ns ∈ jsSetDedup ["a", "b"], fetchOneFails ns = Except.error ()) ∧
      listDeploymentsHandler numTime ["a", "b"] fetchOneFails (some 3) (some 2)
        = { deployments := [],
            pagination := { total := 0, limit := 0, offset := 0, hasMore := false } } ∧
      promiseAll ((jsSetDedup ["a", "b"]).map fetchAB)
        = Except.ok [[mkD 3, mkD 1, mkD 4, mkD 10, mkD 2],
            [mkD 9, mkD 5, mkD 8, mkD 7, mkD 6]] ∧
      mkD 10 ∈ (listDeploymentsHandler numTime ["a", "b"] fetchAB none none).deployments := by
  have hfail : ∃ ns ∈ jsSetDedup ["a", "b"], fetchOneFails ns = Except.error () :=
    ⟨"a", by decide, rfl⟩
  refine ⟨hfail, ?_, rfl, ?_⟩
  · exact (c2_partial_failure_behaviour numTime ["a", "b"] fetchOneFails).1 hfail
      (some 3) (some 2)
  · exact (c2_partial_failure_behaviour numTime ["a", "b"] fetchAB).2 _ rfl (mkD 10)
      ⟨[mkD 3, mkD 1, mkD 4, mkD 10, mkD 2], by simp, by simp⟩

end KubeFoundry
